import Mathlib

/-!
# Verification of `ezyrb/parallel/ae_eddl.py` against its specification

Shallow embedding of the bespoke logic of the `AE_EDDL` class
(`src/ezyrb/parallel/ae_eddl.py`): the stopping-criterion evaluation inside
`fit`, the decoder weight-transfer slice, the `_build_model` graph
construction, the tail of `inverse_transform`, the frame behaviour of
`transform`/`inverse_transform`, and (modelled from the spec, because the
class itself is not shipped in this corpus) the `Database` constructor
validation exercised by `src/tests/test_database.py`.

Modelling conventions:
* numpy / EDDL float scalars are modelled as rationals (`ℚ`): every property
  below depends only on equality and order of the stored numbers, never on
  rounding or precision;
* matrices are lists of rows (`List (List ℚ)`), matching the
  samples-as-rows layout the code uses internally after transposition;
* the external library calls (`eddl.fit`, `eddl.train_batch`,
  `eddl.get_losses`, forward passes, ...) are abstracted as parameters: a
  per-epoch data stream for the training loop, event traces for the batch
  loop, and opaque forward functions for inference;
* the unbounded `while flag:` loops are embedded with explicit fuel; a
  result of `none` means the loop has not terminated within the given fuel,
  and a `none` for every fuel is non-termination.
-/

/-- Matrices: lists of rows of rationals. -/
abbrev Mat : Type := List (List ℚ)

/-- `m.shape[0]`: the number of rows. -/
def rowsM (m : Mat) : ℕ := m.length

/-- `m.shape[1]`: the number of columns, read off the first row (numpy
matrices are rectangular, so any row would do). -/
def colsM (m : Mat) : ℕ := (m.head?.getD []).length

/-- `m` is rectangular: every row has the common length `colsM m`. -/
def Rect (m : Mat) : Prop := ∀ r ∈ m, r.length = colsM m

instance (m : Mat) : Decidable (Rect m) := by
  unfold Rect; exact List.decidableBAll _ m

/-- Column `j` of `m` (out-of-range entries default to `0`; the theorems
below only read columns that exist). -/
def colAt (m : Mat) (j : ℕ) : List ℚ := m.map (fun r => r.getD j 0)

/-- Transpose of a rectangular matrix (`m.T` in numpy). -/
def transposeM (m : Mat) : Mat := (List.range (colsM m)).map (colAt m)

/-!
## Stopping criteria (`AE_EDDL.fit`, the scan shared by the three modes)

An entry of `self.stop_training` is a Python value; `fit` tests it with
`isinstance(criteria, int)` and `isinstance(criteria, float)` and silently
skips values of any other type.
-/

/-- One entry of the `stop_training` list: a Python `int`, a Python `float`
(modelled as a rational), or a value of any other type. -/
inductive StopCriterion : Type
  | intC (k : ℤ)
  | floatC (tol : ℚ)
  | otherC
deriving DecidableEq

/-- The data the library reports for one epoch.  `_build_model` always
compiles the model with exactly one loss and one metric (`[self.loss]`,
`[self.metric]`), so `eddl.get_losses` returns a nonempty list; we keep the
first entry (`losses[0]` in the code) separate to reflect that guarantee. -/
structure EpochData : Type where
  firstLoss : ℚ
  restLosses : List ℚ
  metrics : List ℚ

/-- The full loss list reported for the epoch (`eddl.get_losses(...)`). -/
def EpochData.losses (d : EpochData) : List ℚ := d.firstLoss :: d.restLosses

/-- One criterion test from the scan body of `fit`:
`isinstance(criteria, int)`: stop when `n_epoch == criteria`;
`isinstance(criteria, float)`: stop when `losses[0] < criteria`;
any other type: no branch taken. -/
def criterionHalts (c : StopCriterion) (n_epoch : ℤ) (d : EpochData) : Bool :=
  match c with
  | .intC k => n_epoch == k
  | .floatC tol => decide (d.firstLoss < tol)
  | .otherC => false

/-- The `for criteria in self.stop_training:` scan: starting from the current
`flag`, set it to `False` whenever a criterion fires, otherwise leave it. -/
def scanStop (stop : List StopCriterion) (n_epoch : ℤ) (d : EpochData)
    (flag : Bool) : Bool :=
  stop.foldl (fun f c => if criterionHalts c n_epoch d then false else f) flag

/-- The `while flag:` loop shared (textually identical scan) by the three
training modes of `fit`: each epoch trains (library side effects live in
`stream`), appends the epoch's loss list and metric list to the trends, scans
the stopping list, and increments `n_epoch`.  `fuel` bounds the number of
epochs we unfold; `none` means the loop is still running after `fuel`
epochs.  On termination it returns the final epoch counter (the number of
completed epochs when started at `1`) and the two trend lists. -/
def fitLoop (stop : List StopCriterion) (stream : ℤ → EpochData) :
    ℕ → ℤ → List (List ℚ) → List (List ℚ) →
    Option (ℤ × List (List ℚ) × List (List ℚ))
  | 0, _, _, _ => none
  | fuel + 1, n_epoch, lt, mt =>
    let d := stream n_epoch
    let lt' := lt ++ [d.losses]
    let mt' := mt ++ [d.metrics]
    if scanStop stop n_epoch d true then
      fitLoop stop stream fuel (n_epoch + 1) lt' mt'
    else
      some (n_epoch, lt', mt')

/-- The `if self.training_type == 1: ... elif ... == 2: ... elif ... == 3:`
dispatch of `fit`.  The three branches differ only in the library training
calls made inside the epoch (abstracted into `stream`); their
record-trends-then-scan logic is textually identical, embedded once as
`fitLoop`.  With any other `training_type` no loop body runs and `fit` falls
through to the weight copy with zero completed epochs. -/
def fitEpochs (training_type : ℤ) (stop : List StopCriterion)
    (stream : ℤ → EpochData) (fuel : ℕ) (lt0 mt0 : List (List ℚ)) :
    Option (ℤ × List (List ℚ) × List (List ℚ)) :=
  if training_type = 1 then fitLoop stop stream fuel 1 lt0 mt0
  else if training_type = 2 then fitLoop stop stream fuel 1 lt0 mt0
  else if training_type = 3 then fitLoop stop stream fuel 1 lt0 mt0
  else some (0, lt0, mt0)

/-- The integer interval `[a, b]` as a list (`[]` when `b < a`). -/
def intRange (a b : ℤ) : List ℤ :=
  (List.range (b + 1 - a).toNat).map (fun (i : ℕ) => a + (i : ℤ))

/-- Spec-level halting condition for one epoch, phrased as the claims phrase
it: some entry of the list is an integer equal to the epoch counter, or a
float strictly above the epoch's first loss value. -/
def SpecHalts (stop : List StopCriterion) (n : ℤ) (d : EpochData) : Prop :=
  ∃ c ∈ stop,
    (∃ k, c = StopCriterion.intC k ∧ n = k) ∨
    (∃ tol, c = StopCriterion.floatC tol ∧ d.firstLoss < tol)

lemma scanStop_cons (c : StopCriterion) (cs : List StopCriterion) (n : ℤ)
    (d : EpochData) (flag : Bool) :
    scanStop (c :: cs) n d flag
      = scanStop cs n d (if criterionHalts c n d then false else flag) := rfl

lemma scanStop_flag_false (stop : List StopCriterion) (n : ℤ) (d : EpochData) :
    scanStop stop n d false = false := by
  induction stop with
  | nil => rfl
  | cons c cs ih =>
    rw [scanStop_cons]
    have h2 : (if criterionHalts c n d = true then false else false) = false := by
      split <;> rfl
    rw [h2]
    exact ih

lemma scanStop_eq_any (stop : List StopCriterion) (n : ℤ) (d : EpochData)
    (flag : Bool) :
    scanStop stop n d flag = (flag && !(stop.any fun c => criterionHalts c n d)) := by
  induction stop generalizing flag with
  | nil => simp [scanStop]
  | cons c cs ih =>
    rw [scanStop_cons, List.any_cons]
    by_cases h : criterionHalts c n d = true
    · rw [if_pos h, h, scanStop_flag_false]
      simp
    · rw [if_neg h, ih]
      simp only [Bool.not_eq_true] at h
      rw [h]
      simp

lemma criterionHalts_iff (c : StopCriterion) (n : ℤ) (d : EpochData) :
    criterionHalts c n d = true ↔
      (∃ k, c = StopCriterion.intC k ∧ n = k) ∨
      (∃ tol, c = StopCriterion.floatC tol ∧ d.firstLoss < tol) := by
  cases c with
  | intC k => simp [criterionHalts]
  | floatC tol => simp [criterionHalts]
  | otherC => simp [criterionHalts]

lemma scanStop_false_iff (stop : List StopCriterion) (n : ℤ) (d : EpochData) :
    scanStop stop n d true = false ↔ SpecHalts stop n d := by
  rw [scanStop_eq_any]
  simp only [Bool.true_and, Bool.not_eq_false', List.any_eq_true, SpecHalts]
  constructor
  · rintro ⟨c, hc, hh⟩
    exact ⟨c, hc, (criterionHalts_iff c n d).mp hh⟩
  · rintro ⟨c, hc, hh⟩
    exact ⟨c, hc, (criterionHalts_iff c n d).mpr hh⟩

lemma intRange_self (a : ℤ) : intRange a a = [a] := by
  have h : (a + 1 - a).toNat = 1 := by omega
  simp [intRange, h, List.range_succ]

lemma intRange_cons {a b : ℤ} (h : a ≤ b) :
    intRange a b = a :: intRange (a + 1) b := by
  have h1 : (b + 1 - a).toNat = (b + 1 - (a + 1)).toNat + 1 := by omega
  rw [intRange, intRange, h1, List.range_succ_eq_map, List.map_cons, List.map_map]
  congr 1
  · simp
  · apply List.map_congr_left
    intro i _
    simp only [Function.comp_apply, Nat.succ_eq_add_one]
    push_cast
    ring

/-- Core soundness of the training loop: when it terminates it has appended
exactly one loss list and one metric list per completed epoch, the final
epoch satisfies the spec-level halting condition, and no earlier epoch
does. -/
lemma fitLoop_sound (stop : List StopCriterion) (stream : ℤ → EpochData) :
    ∀ (fuel : ℕ) (n0 : ℤ) (lt mt : List (List ℚ))
      (n : ℤ) (lt' mt' : List (List ℚ)),
      fitLoop stop stream fuel n0 lt mt = some (n, lt', mt') →
      n0 ≤ n ∧
      lt' = lt ++ (intRange n0 n).map (fun k => (stream k).losses) ∧
      mt' = mt ++ (intRange n0 n).map (fun k => (stream k).metrics) ∧
      SpecHalts stop n (stream n) ∧
      ∀ k, n0 ≤ k → k < n → ¬ SpecHalts stop k (stream k) := by
  intro fuel
  induction fuel with
  | zero => intro n0 lt mt n lt' mt' h; simp [fitLoop] at h
  | succ fuel ih =>
    intro n0 lt mt n lt' mt' h
    simp only [fitLoop] at h
    by_cases hs : scanStop stop n0 (stream n0) true = true
    · rw [if_pos hs] at h
      obtain ⟨hle, hlt, hmt, hhalt, hmin⟩ := ih (n0 + 1) _ _ n lt' mt' h
      have hn0n : n0 < n := by omega
      refine ⟨by omega, ?_, ?_, hhalt, ?_⟩
      · rw [hlt, intRange_cons (show n0 ≤ n by omega), List.map_cons]
        simp
      · rw [hmt, intRange_cons (show n0 ≤ n by omega), List.map_cons]
        simp
      · intro k hk1 hk2
        rcases eq_or_lt_of_le hk1 with heq | hlt2
        · intro hsp
          have hsp0 : SpecHalts stop n0 (stream n0) := by rw [heq]; exact hsp
          rw [(scanStop_false_iff stop n0 (stream n0)).mpr hsp0] at hs
          exact Bool.false_ne_true hs
        · exact hmin k (by omega) hk2
    · rw [if_neg hs] at h
      simp only [Bool.not_eq_true] at hs
      simp only [Option.some.injEq, Prod.mk.injEq] at h
      obtain ⟨hn, hlt, hmt⟩ := h
      subst hn
      refine ⟨le_refl n0, ?_, ?_, (scanStop_false_iff _ _ _).mp hs, ?_⟩
      · rw [← hlt, intRange_self]; simp
      · rw [← hmt, intRange_self]; simp
      · intro k hk1 hk2; omega

/-- The empty stopping list never halts the loop: `scanStop` leaves the flag
`True`, so every fuel bound is exhausted. -/
lemma fitLoop_nil (stream : ℤ → EpochData) :
    ∀ (fuel : ℕ) (n : ℤ) (lt mt : List (List ℚ)),
      fitLoop [] stream fuel n lt mt = none := by
  intro fuel
  induction fuel with
  | zero => intro n lt mt; rfl
  | succ fuel ih =>
    intro n lt mt
    simp only [fitLoop, scanStop, List.foldl_nil, if_true]
    exact ih (n + 1) _ _

/-- If a positive integer criterion is in the list, the loop cannot run past
that epoch number: the scan fires at the epoch equal to it (if no earlier
criterion fired first). -/
lemma fitLoop_int_terminates (stop : List StopCriterion) (stream : ℤ → EpochData)
    (m : ℤ) (hm : StopCriterion.intC m ∈ stop) :
    ∀ (fuel : ℕ) (n0 : ℤ) (lt mt : List (List ℚ)),
      1 ≤ n0 → n0 ≤ m → m < n0 + (fuel : ℤ) →
      ∃ n lt' mt', fitLoop stop stream fuel n0 lt mt = some (n, lt', mt') ∧ n ≤ m := by
  intro fuel
  induction fuel with
  | zero =>
    intro n0 lt mt h1 h2 h3
    exfalso
    simp only [Nat.cast_zero, add_zero] at h3
    omega
  | succ fuel ih =>
    intro n0 lt mt h1 h2 h3
    simp only [fitLoop]
    by_cases hs : scanStop stop n0 (stream n0) true = true
    · rw [if_pos hs]
      have hne : n0 ≠ m := by
        intro he
        have hhalt : SpecHalts stop n0 (stream n0) := ⟨_, hm, Or.inl ⟨m, rfl, he⟩⟩
        rw [(scanStop_false_iff _ _ _).mpr hhalt] at hs
        exact Bool.false_ne_true hs
      exact ih (n0 + 1) _ _ (by omega) (by omega)
        (by push_cast at h3 ⊢; omega)
    · rw [if_neg hs]
      exact ⟨n0, _, _, rfl, h2⟩

/-- C1: in every training mode (`training_type` 1, 2 and 3), after each epoch
`fit` appends the epoch's loss list and metric list to `loss_trend` and
`metric_trend`, then scans `stop_training`: an integer entry halts training
once the epoch counter equals it, a float entry halts training once the
epoch's first loss value is strictly below it, and training halts at the end
of the first epoch in which any criterion in the list is satisfied. -/
theorem C1_fit_stopping_policy (training_type : ℤ)
    (ht : training_type = 1 ∨ training_type = 2 ∨ training_type = 3)
    (stop : List StopCriterion) (stream : ℤ → EpochData) (fuel : ℕ)
    (lt0 mt0 : List (List ℚ)) (n : ℤ) (lt mt : List (List ℚ))
    (h : fitEpochs training_type stop stream fuel lt0 mt0 = some (n, lt, mt)) :
    1 ≤ n ∧
    lt = lt0 ++ (intRange 1 n).map (fun k => (stream k).losses) ∧
    mt = mt0 ++ (intRange 1 n).map (fun k => (stream k).metrics) ∧
    SpecHalts stop n (stream n) ∧
    ∀ k, 1 ≤ k → k < n → ¬ SpecHalts stop k (stream k) := by
  have hl : fitLoop stop stream fuel 1 lt0 mt0 = some (n, lt, mt) := by
    rcases ht with h1 | h1 | h1 <;> (subst h1; simpa [fitEpochs] using h)
  exact fitLoop_sound stop stream fuel 1 lt0 mt0 n lt mt hl

/-- Witness for C1: with `stop_training = [2]` the run halts at epoch 2, the
trend lists have one entry per epoch, epoch 2 satisfies the spec-level
halting condition and epoch 1 does not. -/
theorem C1_fit_stopping_policy_witness :
    fitEpochs 2 [StopCriterion.intC 2] (fun _ => ⟨5, [], [7]⟩) 5 [] []
      = some (2, [[5], [5]], [[7], [7]]) ∧
    SpecHalts [StopCriterion.intC 2] 2 ⟨5, [], [7]⟩ ∧
    ¬ SpecHalts [StopCriterion.intC 2] 1 ⟨5, [], [7]⟩ := by
  have hrun : fitEpochs 2 [StopCriterion.intC 2] (fun _ => ⟨5, [], [7]⟩) 5 [] []
      = some (2, [[5], [5]], [[7], [7]]) := by decide
  have h := C1_fit_stopping_policy 2 (Or.inr (Or.inl rfl)) [StopCriterion.intC 2]
    (fun _ => ⟨5, [], [7]⟩) 5 [] [] 2 [[5], [5]] [[7], [7]] hrun
  exact ⟨hrun, h.2.2.2.1, h.2.2.2.2 1 (le_refl 1) (by norm_num)⟩

/-- C3 counterexample: `stop_training = [0]` contains an entry of integer
type, yet the loop is still running after 6 epochs (the epoch counter starts
at 1 and only an exact equality `n_epoch == criteria` stops it, so the entry
`0` can never fire): the number of completed epochs exceeds the maximum of
the integer entries (which is 0), and with this list alone the loop never
terminates at all. -/
theorem C3_counterexample_zero_int_entry :
    fitEpochs 2 [StopCriterion.intC 0] (fun _ => ⟨5, [], [7]⟩) 6 [] [] = none := by
  decide

/-- C3 (amended): for every configuration whose `stop_training` list contains
at least one POSITIVE integer entry, the training loop of `fit` terminates,
and the number of completed epochs does not exceed that entry - in
particular it does not exceed the maximum of the positive integer entries. -/
theorem C3_amended_positive_int_terminates (training_type : ℤ)
    (ht : training_type = 1 ∨ training_type = 2 ∨ training_type = 3)
    (stop : List StopCriterion) (stream : ℤ → EpochData) (m : ℤ) (fuel : ℕ)
    (lt0 mt0 : List (List ℚ))
    (hm : StopCriterion.intC m ∈ stop) (h1 : 1 ≤ m) (hf : m ≤ (fuel : ℤ)) :
    ∃ n lt mt, fitEpochs training_type stop stream fuel lt0 mt0
      = some (n, lt, mt) ∧ n ≤ m := by
  have hcore := fitLoop_int_terminates stop stream m hm fuel 1 lt0 mt0
    (le_refl 1) h1 (by omega)
  rcases ht with h | h | h <;> (subst h; simpa [fitEpochs] using hcore)

/-- Witness for the amended C3: with a float entry and the integer entry 3,
the loop provably terminates within 3 epochs. -/
theorem C3_amended_positive_int_terminates_witness :
    ∃ n lt mt,
      fitEpochs 3 [StopCriterion.floatC 1, StopCriterion.intC 3]
        (fun _ => ⟨5, [], [7]⟩) 4 [] [] = some (n, lt, mt) ∧ n ≤ 3 :=
  C3_amended_positive_int_terminates 3 (Or.inr (Or.inr rfl))
    [StopCriterion.floatC 1, StopCriterion.intC 3] (fun _ => ⟨5, [], [7]⟩) 3 4
    [] [] (by decide) (by decide) (by decide)

/-- C4: if `stop_training` is the empty list, the training loop of `fit`
never terminates, in every training mode: the scan never lowers the flag, so
every fuel bound is exhausted. -/
theorem C4_empty_stop_never_terminates (training_type : ℤ)
    (ht : training_type = 1 ∨ training_type = 2 ∨ training_type = 3)
    (stream : ℤ → EpochData) (fuel : ℕ) (lt0 mt0 : List (List ℚ)) :
    fitEpochs training_type [] stream fuel lt0 mt0 = none := by
  rcases ht with h | h | h <;>
    (subst h; simp [fitEpochs, fitLoop_nil stream])

/-- Witness for C4 at a concrete mode, stream and fuel. -/
theorem C4_empty_stop_never_terminates_witness :
    fitEpochs 1 [] (fun _ => ⟨1, [], [1]⟩) 3 [] [] = none :=
  C4_empty_stop_never_terminates 1 (Or.inl rfl) (fun _ => ⟨1, [], [1]⟩) 3 [] []

lemma scanStop_other_ignored (l1 l2 : List StopCriterion) (n : ℤ)
    (d : EpochData) (flag : Bool) :
    scanStop (l1 ++ StopCriterion.otherC :: l2) n d flag
      = scanStop (l1 ++ l2) n d flag := by
  simp [scanStop_eq_any, List.any_append, List.any_cons, criterionHalts]

lemma fitLoop_other_ignored (l1 l2 : List StopCriterion) (stream : ℤ → EpochData) :
    ∀ (fuel : ℕ) (n : ℤ) (lt mt : List (List ℚ)),
      fitLoop (l1 ++ StopCriterion.otherC :: l2) stream fuel n lt mt
        = fitLoop (l1 ++ l2) stream fuel n lt mt := by
  intro fuel
  induction fuel with
  | zero => intro n lt mt; rfl
  | succ fuel ih =>
    intro n lt mt
    simp only [fitLoop, scanStop_other_ignored]
    by_cases hs : scanStop (l1 ++ l2) n (stream n) true = true
    · rw [if_pos hs, if_pos hs, ih]
    · rw [if_neg hs, if_neg hs]

/-- C10: an entry of `stop_training` that is neither of integer type nor of
float type is silently ignored by the stopping scan in all three training
modes: its criterion test is `False` at every epoch, and removing it from
the list leaves every run of the loop unchanged (and no error is raised, the
embedded scan being a total function). -/
theorem C10_nonnumeric_entry_ignored (training_type : ℤ)
    (ht : training_type = 1 ∨ training_type = 2 ∨ training_type = 3)
    (l1 l2 : List StopCriterion) (stream : ℤ → EpochData) (fuel : ℕ)
    (lt0 mt0 : List (List ℚ)) (n : ℤ) (d : EpochData) :
    criterionHalts StopCriterion.otherC n d = false ∧
    fitEpochs training_type (l1 ++ StopCriterion.otherC :: l2) stream fuel lt0 mt0
      = fitEpochs training_type (l1 ++ l2) stream fuel lt0 mt0 := by
  refine ⟨rfl, ?_⟩
  rcases ht with h | h | h <;>
    (subst h; simp [fitEpochs, fitLoop_other_ignored])

/-- Witness for C10: inserting a non-numeric entry in front of `[1]` changes
nothing about a concrete run. -/
theorem C10_nonnumeric_entry_ignored_witness :
    criterionHalts StopCriterion.otherC 1 ⟨5, [], [7]⟩ = false ∧
    fitEpochs 2 ([] ++ StopCriterion.otherC :: [StopCriterion.intC 1])
        (fun _ => ⟨5, [], [7]⟩) 3 [] []
      = fitEpochs 2 ([] ++ [StopCriterion.intC 1]) (fun _ => ⟨5, [], [7]⟩) 3 [] [] :=
  C10_nonnumeric_entry_ignored 2 (Or.inr (Or.inl rfl)) [] [StopCriterion.intC 1]
    (fun _ => ⟨5, [], [7]⟩) 3 [] [] 1 ⟨5, [], [7]⟩

/-!
## Fine training_1 (`training_type == 2`): the per-epoch batch loop
-/

/-- One library call made inside a Fine-training epoch of `fit`. -/
inductive TrainEvent : Type
  | resetLoss
  | nextBatch
  | trainBatch (input target : Mat)
  | trainBatchIdx (input target : Mat) (indices : List ℕ)
deriving DecidableEq

/-- `num_batches = s[0] // self.batch_size` where `s[0]` is the number of
training samples (rows, after the initial transposition). -/
def fine1NumBatches (N batch_size : ℕ) : ℕ := N / batch_size

/-- The event trace of one epoch of Fine training_1 (`training_type == 2`):
`eddl.reset_loss`, then for each `j in range(num_batches)` a call
`eddl.next_batch([values], [xbatch])` - drawing a batch of the dataset into
the reusable buffer `xbatch` (allocated once as
`Tensor([self.batch_size, 3067])`, its width hardcoded) - followed by
`eddl.train_batch(model_Autoencoder, [xbatch], [xbatch])` with that same
buffer as both input and target.  `cursor j` is the batch the library's
batch-cursor delivers at the j-th call of the epoch. -/
def fine1EpochTrace (N batch_size : ℕ) (cursor : ℕ → Mat) : List TrainEvent :=
  TrainEvent.resetLoss ::
    (List.range (fine1NumBatches N batch_size)).flatMap
      (fun j => [TrainEvent.nextBatch, TrainEvent.trainBatch (cursor j) (cursor j)])

/-- Is the event a `train_batch` call of the batch-cursor kind? -/
def isTrainBatch : TrainEvent → Bool
  | TrainEvent.trainBatch _ _ => true
  | _ => false

/-- C5: in Fine sequential training (`training_type` 2), for a training
matrix with `N` samples, every epoch performs exactly `N / batch_size`
(floor division) train-batch calls, the j-th one training on the batch the
library's batch-cursor delivered at step j, used as both the encoder input
and the decoder target. -/
theorem C5_fine1_batch_trace (N batch_size : ℕ) (cursor : ℕ → Mat) :
    ((fine1EpochTrace N batch_size cursor).filter isTrainBatch).length
        = N / batch_size ∧
    (fine1EpochTrace N batch_size cursor).filter isTrainBatch
        = (List.range (N / batch_size)).map
            (fun j => TrainEvent.trainBatch (cursor j) (cursor j)) := by
  have key : ∀ k : ℕ,
      ((List.range k).flatMap
          (fun j => [TrainEvent.nextBatch,
            TrainEvent.trainBatch (cursor j) (cursor j)])).filter isTrainBatch
        = (List.range k).map (fun j => TrainEvent.trainBatch (cursor j) (cursor j)) := by
    intro k
    induction k with
    | zero => rfl
    | succ k ih => simp [List.range_succ, ih, isTrainBatch]
  refine ⟨?_, ?_⟩
  · simp [fine1EpochTrace, fine1NumBatches, List.filter_cons, isTrainBatch, key]
  · simp [fine1EpochTrace, fine1NumBatches, List.filter_cons, isTrainBatch, key]

/-!
## The weight-transfer step at the end of `fit`
-/

/-- Python slice `xs[i:]`: a negative `i` counts from the end of the list
(clamped at the front), a nonnegative `i` from the start. -/
def pySliceFrom {α : Type} (i : ℤ) (xs : List α) : List α :=
  if i < 0 then xs.drop ((xs.length : ℤ) + i).toNat else xs.drop i.toNat

/-- The weight-transfer step at the end of `fit`:
`num_hidden = len(self.layers_encoder)`,
`num_lay_deccoder = 2*num_hidden - 1`,
`decoder_parameters = eddl.get_parameters(self.model_Autoencoder, True)[-num_lay_deccoder:]`,
then `decoder_parameters.insert(0, [])`.  `P` is the trained autoencoder's
full parameter list (one group per layer, each group a list of weight
tensors, abstracted as `α`); the result is the list that
`eddl.set_parameters(self.model_Decoder, ...)` installs into the standalone
decoder. -/
def decoderTransferParams {α : Type} (layers_encoder : List ℕ)
    (P : List (List α)) : List (List α) :=
  let num_hidden : ℤ := layers_encoder.length
  let num_lay_deccoder : ℤ := 2 * num_hidden - 1
  let decoder_parameters := pySliceFrom (-num_lay_deccoder) P
  [] :: decoder_parameters

/-- C2: the parameter list installed into the standalone decoder model is
exactly one empty placeholder group (for the decoder's fresh input layer)
followed by the last `2*len(layers_encoder) - 1` parameter groups of the
trained autoencoder's full parameter list, copied verbatim and in order (a
suffix of it), so the installed list has `2*len(layers_encoder)` entries in
total. -/
theorem C2_decoder_weight_transfer {α : Type} (layers_encoder : List ℕ)
    (P : List (List α)) (hL : 1 ≤ layers_encoder.length)
    (hP : 2 * layers_encoder.length - 1 ≤ P.length) :
    ∃ t, decoderTransferParams layers_encoder P = [] :: t ∧
      List.IsSuffix t P ∧
      t.length = 2 * layers_encoder.length - 1 ∧
      (decoderTransferParams layers_encoder P).length
        = 2 * layers_encoder.length := by
  have hslice : pySliceFrom (-(2 * (layers_encoder.length : ℤ) - 1)) P
      = P.drop (P.length - (2 * layers_encoder.length - 1)) := by
    rw [pySliceFrom, if_pos (by omega : (-(2 * (layers_encoder.length : ℤ) - 1)) < 0)]
    congr 1
    omega
  have hunfold : decoderTransferParams layers_encoder P
      = [] :: P.drop (P.length - (2 * layers_encoder.length - 1)) := by
    simp only [decoderTransferParams]
    rw [hslice]
  refine ⟨P.drop (P.length - (2 * layers_encoder.length - 1)), hunfold, ?_, ?_, ?_⟩
  · exact List.drop_suffix _ _
  · rw [List.length_drop]
    omega
  · rw [hunfold, List.length_cons, List.length_drop]
    omega

/-- Witness for C2: one configured encoder layer (`num_hidden = 1`), a
three-group parameter list: the installed list is the placeholder plus the
last group, two entries in total. -/
theorem C2_decoder_weight_transfer_witness :
    ∃ t, decoderTransferParams [7] ([[0], [1], [2]] : List (List ℕ)) = [] :: t ∧
      List.IsSuffix t [[0], [1], [2]] ∧
      t.length = 2 * List.length [7] - 1 ∧
      (decoderTransferParams [7] ([[0], [1], [2]] : List (List ℕ))).length
        = 2 * List.length [7] :=
  C2_decoder_weight_transfer [7] [[0], [1], [2]] (by decide) (by decide)

/-!
## `_build_model`: the two layer graphs
-/

/-- A PyEDDL layer graph as built by `_build_model`: `eddl.Input`,
`eddl.Dense`, and activation wrappers (`eddl.Tanh(...)`, `eddl.ReLu(...)`,
..., identified here by name). -/
inductive Layer : Type
  | input (width : ℕ)
  | dense (inp : Layer) (width : ℕ)
  | activ (name : String) (inp : Layer)
deriving DecidableEq

/-- All activation wrappers occurring in a graph, outermost first. -/
def Layer.activations : Layer → List String
  | Layer.input _ => []
  | Layer.dense inp _ => inp.activations
  | Layer.activ name inp => name :: inp.activations

/-- The constructor-normalised configuration of an `AE_EDDL` object: hidden
layer width lists and the (already broadcast) per-layer activation name
lists.  `__init__` guarantees each activation list has the length of the
corresponding width list. -/
structure AEConfig : Type where
  layers_encoder : List ℕ
  layers_decoder : List ℕ
  function_encoder : List String
  function_decoder : List String
deriving DecidableEq

/-- The shared body of `EncoderBlock` / `DecoderBlock` in `_build_model`:
for `i in range(1, len(widths) - 1)` wrap `eddl.Dense(layer, widths[i])` in
the activation `acts[i]`, then add the final unactivated
`eddl.Dense(layer, widths[-1])`.  (Python raises `IndexError` when `acts[i]`
is out of range; the default `""` here is never reached by the
configurations the theorems below use.) -/
def denseBlock (widths : List ℕ) (acts : List String) (layer0 : Layer) : Layer :=
  let mid := (List.range (widths.length - 2)).map (fun j => j + 1)
  let layer := mid.foldl
    (fun l i => Layer.activ (acts.getD i "") (Layer.dense l (widths.getD i 0))) layer0
  Layer.dense layer (widths.getLast?.getD 0)

/-- `_build_model`: prepend the input feature dimension (`values.shape[1]`)
to a copy of the encoder width list and append it to a copy of the decoder
width list, then build the end-to-end autoencoder graph
(`EncoderBlock` feeding `DecoderBlock`) and the standalone decoder graph
with its own fresh input layer.  Faithful to the source: `DecoderBlock`
wraps its hidden layers in `self.function_encoder[i]` - the configured
`function_decoder` list is stored by `__init__` but never read. -/
def buildModel (cfg : AEConfig) (featureDim : ℕ) : Layer × Layer :=
  let layers_encoder := featureDim :: cfg.layers_encoder
  let layers_decoder := cfg.layers_decoder ++ [featureDim]
  let in1 := Layer.input layers_encoder.headI
  let encoder := denseBlock layers_encoder cfg.function_encoder in1
  let decoder := denseBlock layers_decoder cfg.function_encoder encoder
  let in2 := Layer.input layers_decoder.headI
  let decoder2 := denseBlock layers_decoder cfg.function_encoder in2
  (decoder, decoder2)

/-- C6 (evaluation at the failing input): with encoder activation `Tanh` and
decoder activation `ReLu` (each broadcast by `__init__` to per-layer
lists), the graphs built by `_build_model` for an 8-feature training matrix
wrap the standalone decoder's hidden `Dense` layer in `"tanh"` - the
ENCODER's activation - and the string `"relu"` occurs nowhere in either
graph, although the configured `function_decoder` is `["relu", "relu"]`:
the code contradicts its own docstring (and the claim), which say the
decoder layers are wrapped in `function_decoder`. -/
theorem C6_decoder_activation_code_bug :
    (buildModel ⟨[4, 2], [2, 4], ["tanh", "tanh"], ["relu", "relu"]⟩ 8).2
      = Layer.dense (Layer.activ "tanh" (Layer.dense (Layer.input 2) 4)) 8 ∧
    Layer.activations
        (buildModel ⟨[4, 2], [2, 4], ["tanh", "tanh"], ["relu", "relu"]⟩ 8).1
      = ["tanh", "tanh"] ∧
    Layer.activations
        (buildModel ⟨[4, 2], [2, 4], ["tanh", "tanh"], ["relu", "relu"]⟩ 8).2
      = ["tanh"] ∧
    AEConfig.function_decoder ⟨[4, 2], [2, 4], ["tanh", "tanh"], ["relu", "relu"]⟩
      = ["relu", "relu"] := by
  decide

/-!
## `inverse_transform`: optional rescaling and the squeeze of the result
-/

lemma rowsM_transposeM (m : Mat) : rowsM (transposeM m) = colsM m := by
  simp [transposeM, rowsM]

lemma colAt_length (m : Mat) (j : ℕ) : (colAt m j).length = rowsM m := by
  simp [colAt, rowsM]

lemma colsM_transposeM (m : Mat) (h : 1 ≤ colsM m) :
    colsM (transposeM m) = rowsM m := by
  obtain ⟨k, hk⟩ : ∃ k, colsM m = k + 1 := ⟨colsM m - 1, by omega⟩
  rw [transposeM, hk, List.range_succ_eq_map]
  simp [colsM, colAt, rowsM]

lemma tableOf (l : List ℚ) :
    (List.range l.length).map (fun j => l.getD j 0) = l := by
  induction l with
  | nil => rfl
  | cons a t ih =>
    rw [List.length_cons, List.range_succ_eq_map, List.map_cons, List.map_map]
    have hcomp : ((fun j => (a :: t).getD j 0) ∘ Nat.succ)
        = (fun j => t.getD j 0) := by
      funext j
      simp [List.getD_cons_succ]
    rw [hcomp, ih]
    simp

lemma transposeM_transposeM (m : Mat) (hrect : Rect m) (hc : 1 ≤ colsM m) :
    transposeM (transposeM m) = m := by
  have hcT : colsM (transposeM m) = rowsM m := colsM_transposeM m hc
  have hlen : (transposeM (transposeM m)).length = m.length := by
    have h1 : (transposeM (transposeM m)).length = colsM (transposeM m) :=
      rowsM_transposeM (transposeM m)
    rw [h1, hcT, rowsM]
  apply List.ext_getElem hlen
  intro i hi1 hi2
  have hi3 : i < colsM (transposeM m) := by
    rw [hcT, rowsM]; exact hi2
  have step1 : (transposeM (transposeM m))[i] = colAt (transposeM m) i := by
    simp only [transposeM]
    rw [List.getElem_map, List.getElem_range]
  rw [step1]
  have hrow : (m[i] : List ℚ).length = colsM m := hrect _ (List.getElem_mem hi2)
  have step2 : colAt (transposeM m) i
      = (List.range (colsM m)).map (fun j => (m[i] : List ℚ).getD j 0) := by
    simp only [colAt, transposeM, List.map_map]
    apply List.map_congr_left
    intro j hj
    simp only [Function.comp_apply, colAt]
    rw [List.getD_eq_getElem _ _ (by simpa [rowsM] using hi2), List.getElem_map]
  rw [step2, ← hrow, tableOf]

/-- The collaborating scaler object recorded on a database
(`database.scaler_snapshots`), exposing `inverse_transform`. -/
structure SnapshotScaler : Type where
  inv : Mat → Mat

/-- The external database object passed to `inverse_transform`: its
`scaler_snapshots` attribute is optional. -/
structure PyDatabase : Type where
  scaler_snapshots : Option SnapshotScaler

/-- The scaler the guard `if database and database.scaler_snapshots:`
selects, when there is one. -/
def scalerOf (database : Option PyDatabase) : Option SnapshotScaler :=
  database.bind (fun db => db.scaler_snapshots)

/-- The tail of `inverse_transform` after the decoder forward pass.  `u` is
the decoder output read by `eddl.getOutput(self.decoder2)` (samples as
rows); the code computes `predicted_sol = Tensor.getdata(u).T`, optionally
undoes the snapshot scaling
(`database.scaler_snapshots.inverse_transform(predicted_sol.T).T`, guarded
by `if database and database.scaler_snapshots:`), then returns the raveled
one-dimensional array when `1 in predicted_sol.shape` and `predicted_sol.T`
otherwise. -/
def inverse_transform_model (u : Mat) (database : Option PyDatabase) :
    Sum (List ℚ) Mat :=
  let predicted_sol := transposeM u
  let predicted_sol :=
    match database with
    | none => predicted_sol
    | some db =>
      match db.scaler_snapshots with
      | none => predicted_sol
      | some sc => transposeM (sc.inv (transposeM predicted_sol))
  if rowsM predicted_sol = 1 ∨ colsM predicted_sol = 1 then
    Sum.inl predicted_sol.flatten
  else
    Sum.inr (transposeM predicted_sol)

lemma squeeze_step (p : Mat) (hrect : Rect p) (hc : 1 ≤ colsM p) :
    (if rowsM (transposeM p) = 1 ∨ colsM (transposeM p) = 1 then
        (Sum.inl (transposeM p).flatten : Sum (List ℚ) Mat)
      else Sum.inr (transposeM (transposeM p)))
    = (if rowsM p = 1 ∨ colsM p = 1 then
        Sum.inl (transposeM p).flatten else Sum.inr p) := by
  rw [rowsM_transposeM, colsM_transposeM p hc, transposeM_transposeM p hrect hc]
  by_cases h : rowsM p = 1 ∨ colsM p = 1
  · rw [if_pos h.symm, if_pos h]
  · rw [if_neg (fun hx => h hx.symm), if_neg h]

/-- C7 counterexample: for the decoded output `[[1], [2], [3]]` (three
one-feature samples, so `predicted_sol` is the single-ROW matrix
`[[1, 2, 3]]` with three columns), `inverse_transform` returns the squeezed
one-dimensional array `[1, 2, 3]` although the decoded result is NOT a
single-column matrix: the code tests `1 in predicted_sol.shape`, which also
fires on a single row, refuting the claim's "exactly when ... a
single-column matrix". -/
theorem C7_counterexample_single_row_squeeze :
    inverse_transform_model [[1], [2], [3]] none = Sum.inl [1, 2, 3] ∧
    colsM (transposeM ([[1], [2], [3]] : Mat)) = 3 := by
  decide

/-- C7 (amended): `inverse_transform` applies the database's snapshot
scaler's inverse transform to the decoded output exactly when a database
object is supplied and its `scaler_snapshots` attribute is set, and returns
a one-dimensional (squeezed) array exactly when the decoded result has a
single column OR a single row (the code's `1 in predicted_sol.shape`),
returning the transposed two-dimensional matrix otherwise. -/
theorem C7_inverse_transform_amended (u : Mat) (database : Option PyDatabase)
    (hrect : Rect u) (hc : 1 ≤ colsM u)
    (hsc : ∀ sc, scalerOf database = some sc →
      Rect (sc.inv u) ∧ rowsM (sc.inv u) = rowsM u ∧ colsM (sc.inv u) = colsM u) :
    (scalerOf database = none →
      inverse_transform_model u database
        = if rowsM u = 1 ∨ colsM u = 1 then
            Sum.inl (transposeM u).flatten else Sum.inr u) ∧
    (∀ sc, scalerOf database = some sc →
      inverse_transform_model u database
        = if rowsM u = 1 ∨ colsM u = 1 then
            Sum.inl (transposeM (sc.inv u)).flatten else Sum.inr (sc.inv u)) ∧
    ((inverse_transform_model u database).isLeft = true
      ↔ (rowsM u = 1 ∨ colsM u = 1)) := by
  have hTu : transposeM (transposeM u) = u := transposeM_transposeM u hrect hc
  have main : inverse_transform_model u database
      = (match scalerOf database with
        | none => if rowsM u = 1 ∨ colsM u = 1 then
            (Sum.inl (transposeM u).flatten : Sum (List ℚ) Mat) else Sum.inr u
        | some sc => if rowsM u = 1 ∨ colsM u = 1 then
            Sum.inl (transposeM (sc.inv u)).flatten else Sum.inr (sc.inv u)) := by
    rcases database with _ | db
    · simp only [inverse_transform_model, scalerOf, Option.bind]
      exact squeeze_step u hrect hc
    · rcases hdb : db.scaler_snapshots with _ | sc
      · simp only [inverse_transform_model, scalerOf, Option.some_bind, hdb]
        exact squeeze_step u hrect hc
      · obtain ⟨hrect2, hrows2, hcols2⟩ := hsc sc (by simp [scalerOf, hdb])
        simp only [inverse_transform_model, scalerOf, Option.some_bind, hdb]
        rw [hTu]
        rw [squeeze_step (sc.inv u) hrect2 (by rw [hcols2]; exact hc)]
        rw [hrows2, hcols2]
  refine ⟨?_, ?_, ?_⟩
  · intro h0
    rw [main, h0]
  · intro sc hssc
    rw [main, hssc]
  · rw [main]
    rcases hs : scalerOf database with _ | sc <;>
      by_cases hcond : rowsM u = 1 ∨ colsM u = 1 <;>
      simp [hcond]

/-- Witness for the amended C7: a 2 by 2 decoded output with no database is
returned as the (transposed twice) two-dimensional matrix itself. -/
theorem C7_inverse_transform_amended_witness :
    inverse_transform_model [[1, 2], [3, 4]] none = Sum.inr [[1, 2], [3, 4]] := by
  have h := C7_inverse_transform_amended [[1, 2], [3, 4]] none (by decide)
    (by decide) (fun sc hsc => by simp [scalerOf] at hsc)
  have h0 := h.1 (by simp [scalerOf])
  simpa [rowsM, colsM] using h0

/-!
## `transform` / `inverse_transform` leave the object's state unchanged
-/

/-- The attribute state of an `AE_EDDL` object relevant to the frame claim:
configuration (immutable after `__init__`), the stopping list, the trend
lists, and the two built model graphs. -/
structure AEState : Type where
  layers_encoder : List ℕ
  layers_decoder : List ℕ
  function_encoder : List String
  function_decoder : List String
  stop_training : List StopCriterion
  batch_size : ℕ
  training_type : ℤ
  loss_trend : List (List ℚ)
  metric_trend : List (List ℚ)
  model_Autoencoder : Option Layer
  model_Decoder : Option Layer

/-- `transform` (decorated `@task(target_direction=IN)`, so the object is
read-only even across the distributed call): convert `X.T` to a tensor, run
`eddl.predict` on the autoencoder and read the encoder's output tensor
(`forwardEncoder` abstracts that library forward pass), convert back with
`(Tensor.getdata(g).T).T`, and optionally `scaler_red.fit_transform` the
result (which mutates the caller's scaler object, not `self`).  The method
body assigns no attribute of `self`, so the state it leaves behind is the
input state. -/
def AE_transform (s : AEState) (forwardEncoder : Mat → Mat) (X : Mat)
    (scaler_red : Option (Mat → Mat)) : AEState × Mat :=
  let g := forwardEncoder (transposeM X)
  let reduced_output := transposeM (transposeM g)
  let reduced_output :=
    match scaler_red with
    | some sc => sc reduced_output
    | none => reduced_output
  (s, reduced_output)

/-- `inverse_transform` (also `@task(target_direction=IN)`): convert `g.T`
to a tensor, run `eddl.forward` on the standalone decoder and read its
output (`forwardDecoder`), then the recorded tail `inverse_transform_model`.
No attribute of `self` is assigned. -/
def AE_inverse_transform (s : AEState) (forwardDecoder : Mat → Mat) (g : Mat)
    (database : Option PyDatabase) : AEState × Sum (List ℚ) Mat :=
  (s, inverse_transform_model (forwardDecoder (transposeM g)) database)

/-- C8: neither `transform` nor `inverse_transform` mutates any attribute of
the `AE_EDDL` object: after either call the whole state - in particular the
two built models, the layer and activation configuration, the
`stop_training` list and the `loss_trend` / `metric_trend` lists - is
unchanged. -/
theorem C8_transform_frame (s : AEState)
    (forwardEncoder forwardDecoder : Mat → Mat) (X g : Mat)
    (scaler_red : Option (Mat → Mat)) (database : Option PyDatabase) :
    (AE_transform s forwardEncoder X scaler_red).1 = s ∧
    (AE_inverse_transform s forwardDecoder g database).1 = s ∧
    (AE_transform s forwardEncoder X scaler_red).1.model_Autoencoder
      = s.model_Autoencoder ∧
    (AE_transform s forwardEncoder X scaler_red).1.model_Decoder
      = s.model_Decoder ∧
    (AE_transform s forwardEncoder X scaler_red).1.layers_encoder
      = s.layers_encoder ∧
    (AE_transform s forwardEncoder X scaler_red).1.function_decoder
      = s.function_decoder ∧
    (AE_transform s forwardEncoder X scaler_red).1.stop_training
      = s.stop_training ∧
    (AE_inverse_transform s forwardDecoder g database).1.loss_trend
      = s.loss_trend ∧
    (AE_inverse_transform s forwardDecoder g database).1.metric_trend
      = s.metric_trend :=
  ⟨rfl, rfl, rfl, rfl, rfl, rfl, rfl, rfl, rfl⟩

/-!
## The `Database` constructor validation (spec-modelled)
-/

/-- Modelled from the spec: the `Database` class itself is not under `src/`
(only its unit tests, `src/tests/test_database.py`, are).  Per the spec,
the constructor succeeds with no arguments (an empty container) and with a
parameter matrix and a snapshot matrix whose sample counts agree; it raises
`RuntimeError` when the sample counts of the two matrices disagree, and
when a single matrix is supplied without snapshots (insufficient distinct
inputs to form a valid database). -/
def databaseNew (parameters snapshots : Option Mat) : Except String Unit :=
  match parameters, snapshots with
  | none, none => Except.ok ()
  | some p, some s =>
    if rowsM p = rowsM s then Except.ok ()
    else Except.error "RuntimeError: parameters and snapshots sample counts differ"
  | _, _ => Except.error "RuntimeError: insufficient arguments to form a database"

/-- Did the constructor succeed (no `RuntimeError`)? -/
def constructorOk (e : Except String Unit) : Bool :=
  match e with
  | Except.ok _ => true
  | Except.error _ => false

/-- C9: the `Database` constructor succeeds when called with no arguments
and when called with a (10,3) parameter matrix and a (10,8) snapshot
matrix; it raises a `RuntimeError` when the sample counts disagree (shapes
(9,3) and (10,8)) and when constructed with a single square (5,5)
matrix. -/
theorem C9_database_constructor (p s p9 s10 q : Mat)
    (hp : rowsM p = 10) (_hpc : colsM p = 3)
    (hs : rowsM s = 10) (_hsc2 : colsM s = 8)
    (hp9 : rowsM p9 = 9) (_hp9c : colsM p9 = 3)
    (hs10 : rowsM s10 = 10) (_hs10c : colsM s10 = 8)
    (_hq : rowsM q = 5) (_hqc : colsM q = 5) :
    constructorOk (databaseNew none none) = true ∧
    constructorOk (databaseNew (some p) (some s)) = true ∧
    constructorOk (databaseNew (some p9) (some s10)) = false ∧
    constructorOk (databaseNew (some q) none) = false := by
  refine ⟨rfl, ?_, ?_, rfl⟩
  · simp [databaseNew, constructorOk, hp, hs]
  · simp [databaseNew, constructorOk, hp9, hs10]

/-- Witness for C9 at concrete matrices of the tested shapes. -/
theorem C9_database_constructor_witness :
    constructorOk (databaseNew none none) = true ∧
    constructorOk (databaseNew
        (some (List.replicate 10 (List.replicate 3 (0 : ℚ))))
        (some (List.replicate 10 (List.replicate 8 (0 : ℚ))))) = true ∧
    constructorOk (databaseNew
        (some (List.replicate 9 (List.replicate 3 (0 : ℚ))))
        (some (List.replicate 10 (List.replicate 8 (0 : ℚ))))) = false ∧
    constructorOk (databaseNew
        (some (List.replicate 5 (List.replicate 5 (0 : ℚ)))) none) = false :=
  C9_database_constructor
    (List.replicate 10 (List.replicate 3 (0 : ℚ)))
    (List.replicate 10 (List.replicate 8 (0 : ℚ)))
    (List.replicate 9 (List.replicate 3 (0 : ℚ)))
    (List.replicate 10 (List.replicate 8 (0 : ℚ)))
    (List.replicate 5 (List.replicate 5 (0 : ℚ)))
    (by decide) (by decide) (by decide) (by decide) (by decide)
    (by decide) (by decide) (by decide) (by decide) (by decide)
